import Mathlib

/-!
Verification of the persistence and caching core of the recipe-catalog app.

The embedding follows `src/services/storage.ts` (the Document Store /
Record Cache / Mutex Sequencer / Recipe Repository) and
`src/services/imageCache.ts` (the URI Validation Cache).  Timestamps are
milliseconds-since-epoch modelled as `Nat` (a JavaScript `Date` wraps such a
number); the platform key-value medium (`AsyncStorage`), the WHATWG `URL`
constructor and `fetch` are external collaborators and are modelled as
explicit environment parameters.
-/

namespace RecipeApp

/-- `CACHE_TIMEOUT` from `src/constants/index.ts`: 5 * 60 * 1000 ms. -/
def CACHE_TIMEOUT : Nat := 5 * 60 * 1000

/-- `VALIDATION_CACHE_DURATION` from `src/constants/index.ts`: 5 * 60 * 1000 ms. -/
def VALIDATION_CACHE_DURATION : Nat := 5 * 60 * 1000

/-- `IMAGE_LOAD_TIMEOUT` from `src/constants/index.ts`: 3000 ms.  In the
embedding the timeout is folded into the fetch oracle (a timed-out HEAD
request surfaces as a thrown `AbortError`). -/
def IMAGE_LOAD_TIMEOUT : Nat := 3000

/-- The in-memory `Recipe` of `src/types/Recipe.ts`.  The date fields are
`Option Nat` because the code defends against `undefined` dates
(`recipe.createdAt || new Date()` in `saveRecipe`,
`recipe.updatedAt ? ... : new Date()` in `readFromStorage`). -/
structure Recipe where
  id : String
  title : String
  description : String
  images : List String
  createdAt : Option Nat
  updatedAt : Option Nat
  deriving DecidableEq, Repr

/-- A raw date value as it sits in the persisted JSON, from the point of view
of `parseDate`: either `new Date(value)` yields a valid time `t`, or it is
`NaN`. -/
inductive RawDate where
  | parsable (t : Nat)
  | unparsable
  deriving DecidableEq, Repr

/-- One element of the persisted JSON array.  `updatedAt = none` models an
absent (or otherwise falsy) `updatedAt` field, which `readFromStorage`
replaces by the current time. -/
structure RawRecipe where
  id : String
  title : String
  description : String
  images : List String
  createdAt : RawDate
  updatedAt : Option RawDate
  deriving DecidableEq, Repr

/-- The payload under the single storage key `@recipes`, distinguished
exactly as `readFromStorage` distinguishes it: `getItem` returned a falsy
value, `getItem` rejected, `JSON.parse` threw, the JSON value is not an
array, or it is an array of recipe documents. -/
inductive Payload where
  | absent
  | readError
  | notJson
  | notArray
  | arr (rs : List RawRecipe)
  deriving DecidableEq, Repr

/-- `parseDate` from `src/services/storage.ts`: `new Date(value)`, falling
back to `new Date()` (the current time `now`) when the result `isNaN`. -/
def parseDate (value : RawDate) (now : Nat) : Nat :=
  match value with
  | .parsable t => t
  | .unparsable => now

/-- Deserialization of one stored document inside `readFromStorage`:
`createdAt: parseDate(recipe.createdAt)`,
`updatedAt: recipe.updatedAt ? parseDate(recipe.updatedAt) : new Date()`. -/
def deserializeRecipe (r : RawRecipe) (now : Nat) : Recipe :=
  { id := r.id
    title := r.title
    description := r.description
    images := r.images
    createdAt := some (parseDate r.createdAt now)
    updatedAt := some (match r.updatedAt with
      | some v => parseDate v now
      | none => now) }

/-- The pure content of `readFromStorage` from `src/services/storage.ts`:
a missing payload, a rejected `getItem`, corrupt JSON or a non-array JSON
value all yield the empty collection; otherwise every element is
deserialized with defensive date parsing. -/
def readFromStorage (p : Payload) (now : Nat) : List Recipe :=
  match p with
  | .absent => []
  | .readError => []
  | .notJson => []
  | .notArray => []
  | .arr rs => rs.map (fun r => deserializeRecipe r now)

/-- Serialization in `writeToStorage`: each recipe is written with
`createdAt: recipe.createdAt?.toISOString()` and likewise for `updatedAt`.
An absent date serializes as an absent field. -/
def serializeRecipe (r : Recipe) : RawRecipe :=
  { id := r.id
    title := r.title
    description := r.description
    images := r.images
    createdAt := match r.createdAt with
      | some t => .parsable t
      | none => .unparsable
    updatedAt := r.updatedAt.map (fun t => .parsable t) }

/-- The payload written by `writeToStorage`: always a JSON array. -/
def serializeRecipes (rs : List Recipe) : Payload :=
  .arr (rs.map serializeRecipe)

/-- The errors thrown by the storage module, produced by
`storageError(message, operation)`:
* `validation op` is `"[Storage:" op "] Recipe must have an ID"` (for
  `save`/`update`) or `"[Storage:delete] Recipe ID required"`,
* `conflict id` is `"[Storage:save] Recipe " id " already exists"` (the
  spec's `ConflictError`),
* `notFound op id` is `"[Storage:" op "] Recipe " id " not found"` (the
  spec's `NotFoundError`). -/
inductive SErr where
  | validation (op : String)
  | conflict (id : String)
  | notFound (op : String) (id : String)
  deriving DecidableEq, Repr

/-- A storage-medium access, as observed by the tests' mock of
`AsyncStorage`: a `getItem` call or a `setItem` call on the `@recipes`
key. -/
inductive Ev where
  | read
  | write
  deriving DecidableEq, Repr

/-- The mutable module state of `src/services/storage.ts`: the Document
Store payload, the Record Cache `{data, timestamp}`, and the trace of
storage accesses performed so far. -/
structure St where
  store : Payload
  cacheD : Option (List Recipe)
  cacheT : Nat
  trace : List Ev
  deriving DecidableEq, Repr

/-- The initial module state: empty store, cache `{data: null, timestamp: 0}`. -/
def St.init : St :=
  { store := .absent, cacheD := none, cacheT := 0, trace := [] }

/-- One `readFromStorage` call: a `getItem` access followed by pure
deserialization.  The cache is not touched (only `getRecipes` and
`writeToStorage` set it). -/
def readOp (st : St) (now : Nat) : List Recipe × St :=
  (readFromStorage st.store now, { st with trace := st.trace ++ [.read] })

/-- One successful `writeToStorage recipes` call: a `setItem` access with
the serialized collection, then `cache = { data: recipes, timestamp:
Date.now() }`.  Note that the cache is replaced with the written data, not
invalidated. -/
def writeOp (recipes : List Recipe) (st : St) (now : Nat) : St :=
  { store := serializeRecipes recipes
    cacheD := some recipes
    cacheT := now
    trace := st.trace ++ [.write] }

/-- `getRecipes` from `src/services/storage.ts`, run to completion with the
mutex uncontended: return the cache when `cache.data` is truthy and
`Date.now() - cache.timestamp < CACHE_TIMEOUT`; otherwise read from storage
and refresh the cache. -/
def getRecipesOp (st : St) (now : Nat) : List Recipe × St :=
  match st.cacheD with
  | some d =>
      if now - st.cacheT < CACHE_TIMEOUT then (d, st)
      else
        let rs := (readOp st now).1
        (rs, { (readOp st now).2 with cacheD := some rs, cacheT := now })
  | none =>
      let rs := (readOp st now).1
      (rs, { (readOp st now).2 with cacheD := some rs, cacheT := now })

/-- The new record appended by `saveRecipe`: `{...recipe, createdAt:
recipe.createdAt || new Date(), updatedAt: new Date()}`. -/
def stampNew (r : Recipe) (now : Nat) : Recipe :=
  { r with createdAt := some (r.createdAt.getD now), updatedAt := some now }

/-- `saveRecipe` from `src/services/storage.ts`, run to completion with the
mutex uncontended.  The empty-id check happens synchronously before the
mutex; inside the critical section the collection is re-read, a duplicate
id raises the conflict error, and otherwise the stamped record is appended
and written back. -/
def saveRecipeOp (r : Recipe) (st : St) (now : Nat) : Option SErr × St :=
  if r.id = "" then (some (.validation "save"), st)
  else
    let rs := (readOp st now).1
    if rs.any (fun x => x.id == r.id) then (some (.conflict r.id), (readOp st now).2)
    else (none, writeOp (rs ++ [stampNew r now]) (readOp st now).2 now)

/-- The in-place replacement performed by `updateRecipe`
(`findIndex` + `updated[index] = {...recipe, createdAt:
recipes[index].createdAt, updatedAt: new Date()}`): the first record whose
id matches is replaced by the caller's payload with the stored `createdAt`
carried over; `none` when no record matches. -/
def updateIn (r : Recipe) (now : Nat) : List Recipe → Option (List Recipe)
  | [] => none
  | x :: xs =>
      if x.id == r.id then
        some ({ r with createdAt := x.createdAt, updatedAt := some now } :: xs)
      else (updateIn r now xs).map (fun ys => x :: ys)

/-- `updateRecipe` from `src/services/storage.ts`, run to completion with
the mutex uncontended. -/
def updateRecipeOp (r : Recipe) (st : St) (now : Nat) : Option SErr × St :=
  if r.id = "" then (some (.validation "update"), st)
  else
    match updateIn r now (readOp st now).1 with
    | none => (some (.notFound "update" r.id), (readOp st now).2)
    | some updated => (none, writeOp updated (readOp st now).2 now)

/-- `deleteRecipe` from `src/services/storage.ts`, run to completion with
the mutex uncontended. -/
def deleteRecipeOp (recipeId : String) (st : St) (now : Nat) : Option SErr × St :=
  if recipeId = "" then (some (.validation "delete"), st)
  else
    let rs := (readOp st now).1
    let filtered := rs.filter (fun x => x.id != recipeId)
    if filtered.length = rs.length then (some (.notFound "delete" recipeId), (readOp st now).2)
    else (none, writeOp filtered (readOp st now).2 now)

/-- Modelled from the spec: `deleteRecipes(ids)` is exported by
`src/services/storage.ts` according to its test suite, but the function
body is not among the sources.  Per the spec it is a no-op performing no
store access when the id list is empty, and otherwise removes all matching
records in one read-modify-write pass, silently ignoring ids with no
match. -/
def deleteRecipesOp (ids : List String) (st : St) (now : Nat) : Option SErr × St :=
  if ids = [] then (none, st)
  else
    let rs := (readOp st now).1
    (none, writeOp (rs.filter (fun x => !ids.contains x.id)) (readOp st now).2 now)

/-!
## A small-step scheduler for two concurrent `saveRecipe` calls

`withMutex` (storage.ts lines 17-24) chains every queued function onto the
module-level `mutexPromise`; a queued function starts only once the
previous chain promise has settled, and the chain promise settles (always
fulfilled, by the two-handler `result.then(() => undefined, () =>
undefined)`) once the queued function's own result promise settles.

The machine below runs two queued `saveRecipe` critical sections under an
adversarial scheduler: at every step any enabled rule may fire.  A critical
section is cut at its `await` points (the `getItem` inside
`readFromStorage` and the `setItem` inside `writeToStorage`), so the
scheduler could interleave the two read-modify-write sequences if the
promise chain permitted it.  The clock ticks on every step.
-/

/-- The phase of a `saveRecipe` critical section between its `await`
points: not yet past the read, just resumed with the parsed collection, or
just resumed after the write. -/
inductive Phase where
  | start
  | afterRead (rs : List Recipe)
  | afterWrite
  deriving DecidableEq, Repr

/-- What the next synchronous segment of the `saveRecipe` body does. -/
inductive SegResult where
  | issueRead
  | issueWrite (l : List Recipe)
  | settleOk
  | settleErr (e : SErr)
  deriving DecidableEq, Repr

/-- The synchronous segments of the `saveRecipe(r)` critical section
(storage.ts lines 91-106): first `await readFromStorage()`; on resumption,
the duplicate check either throws the conflict error or computes the
appended collection and `await writeToStorage(...)`; on resumption from
the write the body returns. -/
def saveSegment (r : Recipe) (ph : Phase) (now : Nat) : SegResult :=
  match ph with
  | .start => .issueRead
  | .afterRead rs =>
      if rs.any (fun x => x.id == r.id) then .settleErr (.conflict r.id)
      else .issueWrite (rs ++ [stampNew r now])
  | .afterWrite => .settleOk

/-- Status of one queued critical section: not yet started (its chain
predecessor has not settled), runnable at a phase, suspended on the
`getItem` or `setItem` promise, or settled.  `chainDone` records whether
the chain promise hooked onto this task's result by
`result.then(() => undefined, () => undefined)` has itself settled. -/
inductive TStat where
  | notStarted
  | runnable (ph : Phase)
  | awaitingRead
  | awaitingWrite (l : List Recipe)
  | settled (r : Option SErr) (chainDone : Bool)
  deriving DecidableEq, Repr

/-- Scheduler state: the two queued `saveRecipe` tasks in chain order, the
Document Store payload, the Record Cache, the clock and the observed trace
of storage accesses. -/
structure MState where
  r1 : Recipe
  s1 : TStat
  r2 : Recipe
  s2 : TStat
  store : Payload
  cacheD : Option (List Recipe)
  cacheT : Nat
  now : Nat
  trace : List Ev
  deriving DecidableEq, Repr

/-- Fire one synchronous segment of task 1. -/
def runSeg1 (m : MState) (ph : Phase) : MState :=
  match saveSegment m.r1 ph m.now with
  | .issueRead => { m with s1 := .awaitingRead, trace := m.trace ++ [.read], now := m.now + 1 }
  | .issueWrite l => { m with s1 := .awaitingWrite l, trace := m.trace ++ [.write], now := m.now + 1 }
  | .settleOk => { m with s1 := .settled none false, now := m.now + 1 }
  | .settleErr e => { m with s1 := .settled (some e) false, now := m.now + 1 }

/-- Fire one synchronous segment of task 2. -/
def runSeg2 (m : MState) (ph : Phase) : MState :=
  match saveSegment m.r2 ph m.now with
  | .issueRead => { m with s2 := .awaitingRead, trace := m.trace ++ [.read], now := m.now + 1 }
  | .issueWrite l => { m with s2 := .awaitingWrite l, trace := m.trace ++ [.write], now := m.now + 1 }
  | .settleOk => { m with s2 := .settled none false, now := m.now + 1 }
  | .settleErr e => { m with s2 := .settled (some e) false, now := m.now + 1 }

/-- Enabled moves of task 1.  Task 1 is hooked onto the initial resolved
`mutexPromise`, so it may start at once.  A suspended task resumes when its
storage promise resolves: the read resumes with the deserialized current
payload, the write resumes after the payload and the Record Cache have been
updated (`writeToStorage`).  A settled task's chain promise settles in a
later microtask, whether the task fulfilled or rejected. -/
def steps1 (m : MState) : List MState :=
  match m.s1 with
  | .notStarted => [{ m with s1 := .runnable .start, now := m.now + 1 }]
  | .runnable ph => [runSeg1 m ph]
  | .awaitingRead =>
      [{ m with s1 := .runnable (.afterRead (readFromStorage m.store m.now)), now := m.now + 1 }]
  | .awaitingWrite l =>
      [{ m with s1 := .runnable .afterWrite, store := serializeRecipes l,
                cacheD := some l, cacheT := m.now, now := m.now + 1 }]
  | .settled r false => [{ m with s1 := .settled r true, now := m.now + 1 }]
  | .settled _ true => []

/-- Enabled moves of task 2.  Task 2 is hooked onto the chain promise of
task 1, so it may start only once that promise has settled. -/
def steps2 (m : MState) : List MState :=
  match m.s2 with
  | .notStarted =>
      match m.s1 with
      | .settled _ true => [{ m with s2 := .runnable .start, now := m.now + 1 }]
      | _ => []
  | .runnable ph => [runSeg2 m ph]
  | .awaitingRead =>
      [{ m with s2 := .runnable (.afterRead (readFromStorage m.store m.now)), now := m.now + 1 }]
  | .awaitingWrite l =>
      [{ m with s2 := .runnable .afterWrite, store := serializeRecipes l,
                cacheD := some l, cacheT := m.now, now := m.now + 1 }]
  | .settled r false => [{ m with s2 := .settled r true, now := m.now + 1 }]
  | .settled _ true => []

/-- All successors of a scheduler state: any enabled move of either task. -/
def succs (m : MState) : List MState :=
  steps1 m ++ steps2 m

/-- The scheduler step relation. -/
def MStep (a b : MState) : Prop :=
  b ∈ succs a

/-- The ids stored in the Document Store payload, in order. -/
def storedIds (p : Payload) : List String :=
  match p with
  | .arr rs => rs.map (fun r => r.id)
  | _ => []

/-- The first concrete recipe of the two-save scenario. -/
def recA : Recipe :=
  { id := "1", title := "Soup", description := "", images := [],
    createdAt := none, updatedAt := none }

/-- The second concrete recipe of the two-save scenario. -/
def recB : Recipe :=
  { id := "2", title := "Stew", description := "", images := [],
    createdAt := none, updatedAt := none }

/-- Two `saveRecipe` calls submitted concurrently against the initially
empty store: both critical sections are queued (their synchronous empty-id
checks passed), neither has started, the store is empty and no storage
access has happened yet. -/
def initM : MState :=
  { r1 := recA, s1 := .notStarted, r2 := recB, s2 := .notStarted,
    store := .absent, cacheD := none, cacheT := 0, now := 0, trace := [] }

/-- Add states not yet present. -/
def addNew (acc : List MState) (ms : List MState) : List MState :=
  ms.foldl (fun a m => if m ∈ a then a else a ++ [m]) acc

/-- `n` rounds of closing a state set under `succs`. -/
def reachSet : Nat → List MState → List MState
  | 0, acc => acc
  | n + 1, acc => reachSet n (addNew acc (acc.map succs).flatten)

/-- The explored state space of the two-save scenario. -/
def twoSaveStates : List MState :=
  reachSet 20 [initM]

/-- Follow the scheduler for `n` steps, taking the first enabled move. -/
def runDet : Nat → MState → MState
  | 0, m => m
  | n + 1, m =>
      match succs m with
      | [] => m
      | m' :: _ => runDet n m'

/-- The final state of the two-save scenario. -/
def finalM : MState :=
  runDet 20 initM

/-!
## The `withMutex` promise chain, denotationally

For claims about arbitrary queued functions we model a settled promise
computation denotationally: a function from the shared state to the final
state paired with the outcome (`Except.ok` for fulfilment, `Except.error`
for rejection).  `Prom.then1` is the one-handler `p.then(fn)` used at
storage.ts line 18 — when `p` rejects, `fn` is skipped and the rejection
propagates.  `Prom.then2` is the two-handler
`result.then(() => undefined, () => undefined)` of lines 19-22 — it
fulfils whichever way `result` settles.  The non-interleaving of the
underlying suspension points is established separately by the small-step
scheduler above.
-/

/-- A settled asynchronous computation over shared state `σ`, with
rejection values in `ε`. -/
def Prom (σ ε α : Type) : Type :=
  σ → σ × Except ε α

/-- One-handler `p.then(fn)`: run `fn` only if `p` fulfilled; propagate
`p`'s rejection otherwise. -/
def Prom.then1 {σ ε α : Type} (p : Prom σ ε Unit) (fn : Prom σ ε α) : Prom σ ε α :=
  fun s =>
    match p s with
    | (s1, .ok _) => fn s1
    | (s1, .error e) => (s1, .error e)

/-- Two-handler `p.then(() => undefined, () => undefined)`: fulfils with
`undefined` whether `p` fulfilled or rejected. -/
def Prom.then2 {σ ε α : Type} (p : Prom σ ε α) : Prom σ ε Unit :=
  fun s => ((p s).1, .ok ())

/-- The module-level `mutexPromise` of storage.ts line 15. -/
structure MutexChain (σ ε : Type) where
  mutexPromise : Prom σ ε Unit

/-- `let mutexPromise = Promise.resolve()`: the initial chain is already
fulfilled. -/
def MutexChain.init {σ ε : Type} : MutexChain σ ε :=
  ⟨fun s => (s, .ok ())⟩

/-- `withMutex` from storage.ts lines 17-24:
`const result = mutexPromise.then(fn); mutexPromise =
result.then(() => undefined, () => undefined); return result`. -/
def withMutex {σ ε α : Type} (ms : MutexChain σ ε) (fn : Prom σ ε α) :
    Prom σ ε α × MutexChain σ ε :=
  let result := Prom.then1 ms.mutexPromise fn
  (result, ⟨Prom.then2 result⟩)

/-- A concrete rejecting queued function over `Nat` shared state. -/
def bumpFail : Prom Nat String Unit :=
  fun n => (n + 1, Except.error "boom")

/-- A concrete fulfilling queued function over `Nat` shared state. -/
def doubleOk : Prom Nat String Nat :=
  fun n => (n * 2, Except.ok n)

/-!
## The URI Validation Cache (`src/services/imageCache.ts`)

String predicates mirror the JavaScript string methods used by
`isValidImageUri`; the WHATWG `URL` constructor and `fetch` are platform
collaborators, passed in as an explicit hostname parser and a HEAD-request
oracle.  `fetchHeadOk uri = some b` models a HEAD response whose `ok` flag
is `b`; `none` models a rejected fetch (network failure, or the
`AbortController` timeout firing after `IMAGE_LOAD_TIMEOUT`).
-/

/-- Does `pat` occur as a prefix of some suffix of `l`?  This is
JavaScript's `String.prototype.includes` on character lists. -/
def hasSubAux (pat : List Char) : List Char → Bool
  | [] => pat.isEmpty
  | c :: rest => pat.isPrefixOf (c :: rest) || hasSubAux pat rest

/-- JavaScript `s.includes(pat)`. -/
def jsIncludes (s pat : String) : Bool :=
  hasSubAux pat.toList s.toList

/-- Character-list prefix test. -/
def prefAux : List Char → List Char → Bool
  | [], _ => true
  | _ :: _, [] => false
  | p :: ps, c :: cs => p == c && prefAux ps cs

/-- JavaScript `s.startsWith(pat)`. -/
def jsStartsWith (s pat : String) : Bool :=
  prefAux pat.toList s.toList

/-- JavaScript `!uri || uri.trim().length === 0`: the string is empty or
all-whitespace. -/
def jsEmptyTrim (s : String) : Bool :=
  s.toList.all (fun c => c.isWhitespace)

/-- One entry of the validation cache: `{isValid, timestamp}`. -/
structure VEntry where
  isValid : Bool
  timestamp : Nat
  deriving DecidableEq, Repr

/-- The module-level `validationCache` `Map`, in insertion order. -/
abbrev VCache : Type :=
  List (String × VEntry)

/-- `validationCache.get(uri)`: the entry stored under the key. -/
def vGet : VCache → String → Option VEntry
  | [], _ => none
  | kv :: rest, uri => if kv.1 == uri then some kv.2 else vGet rest uri

/-- `validationCache.set(uri, e)`: replace in place, or append. -/
def vSet : VCache → String → VEntry → VCache
  | [], uri, e => [(uri, e)]
  | kv :: rest, uri, e =>
      if kv.1 == uri then (uri, e) :: rest else kv :: vSet rest uri e

/-- `validationCache.size`. -/
def vSize (c : VCache) : Nat :=
  c.length

/-- The opportunistic sweep at the end of `isValidImageUri`: once the entry
count exceeds 100, every entry older than the TTL is deleted. -/
def vSweep (c : VCache) (now : Nat) : VCache :=
  if vSize c > 100 then
    c.filter (fun kv => !decide (now - kv.2.timestamp > VALIDATION_CACHE_DURATION))
  else c

/-- The `trustedDomains` allow-list of `isValidImageUri`
(`src/services/imageCache.ts` line 79). -/
def trustedDomains : List String :=
  ["picsum.photos"]

/-- The per-call platform environment of `isValidImageUri`: the current
time and the `fetch` HEAD oracle. -/
structure ImgEnv where
  now : Nat
  fetchHeadOk : String → Option Bool

/-- Result of one `isValidImageUri` call: the resolved boolean, the
validation cache afterwards, and how many network existence checks the
call issued. -/
structure VResult where
  result : Bool
  cache : VCache
  netCalls : Nat

/-- The `try`-block of `isValidImageUri` for a URI that missed the cache:
local-file URIs get the heuristic sanity check; remote URIs on a trusted
host skip the network; other remote URIs issue one HEAD check whose
failure (or the `URL` constructor throwing) is caught and downgraded to
`false`.  Any other scheme leaves `isValid` at `false`. -/
def validateUncached (parseHost : String → Option String) (env : ImgEnv)
    (uri : String) : Bool × Nat :=
  if jsStartsWith uri "file://" || jsStartsWith uri "content://" then
    (decide (uri.length > 10) && !jsIncludes uri ".." && !jsIncludes uri "tmp/tmp"
      && !jsIncludes uri "undefined", 0)
  else if jsStartsWith uri "http://" || jsStartsWith uri "https://" then
    match parseHost uri with
    | none => (false, 0)
    | some host =>
        if trustedDomains.any (fun d => jsIncludes host d) then (true, 0)
        else
          match env.fetchHeadOk uri with
          | some ok => (ok, 1)
          | none => (false, 1)
  else (false, 0)

/-- The cache-miss path of `isValidImageUri`: validate, `set` the outcome
with the current timestamp, then sweep opportunistically. -/
def validateAndCache (parseHost : String → Option String) (env : ImgEnv)
    (c : VCache) (uri : String) : VResult :=
  let vn := validateUncached parseHost env uri
  { result := vn.1
    cache := vSweep (vSet c uri ⟨vn.1, env.now⟩) env.now
    netCalls := vn.2 }

/-- `isValidImageUri` from `src/services/imageCache.ts` lines 54-122:
empty/whitespace URIs are invalid without touching the cache; a cache
entry younger than the TTL is returned as is; otherwise the URI is
validated, cached and the cache swept. -/
def isValidImageUri (parseHost : String → Option String) (env : ImgEnv)
    (c : VCache) (uri : String) : VResult :=
  if jsEmptyTrim uri then ⟨false, c, 0⟩
  else
    match vGet c uri with
    | some cached =>
        if env.now - cached.timestamp < VALIDATION_CACHE_DURATION then
          ⟨cached.isValid, c, 0⟩
        else validateAndCache parseHost env c uri
    | none => validateAndCache parseHost env c uri

/-- A URI that the code's trusted-domain short-circuit accepts: an
`http(s)` URI whose parsed hostname contains a trusted domain. -/
def TrustedHttpUri (parseHost : String → Option String) (uri : String) : Prop :=
  (jsStartsWith uri "http://" || jsStartsWith uri "https://") = true ∧
  ∃ host, parseHost uri = some host ∧
    trustedDomains.any (fun d => jsIncludes host d) = true

/-- Good validation caches map every trusted `http(s)` URI to `true`.
Every cache the module can actually build is good (the empty cache is, and
`isValidImageUri` preserves goodness). -/
def GoodCache (parseHost : String → Option String) (c : VCache) : Prop :=
  ∀ kv ∈ c, TrustedHttpUri parseHost kv.1 → kv.2.isValid = true

/-!
## Concrete inputs used by counterexamples and witnesses
-/

/-- The raw `updatedAt` fields as persisted in a payload, in order. -/
def storedUpdated (p : Payload) : List (Option RawDate) :=
  match p with
  | .arr rs => rs.map (fun r => r.updatedAt)
  | _ => []

/-- The module state after a successful `saveRecipe recA` at time 5. -/
def stSavedA : St :=
  (saveRecipeOp recA St.init 5).2

/-- An update payload for `recA`'s id that tries to overwrite `createdAt`. -/
def recA2 : Recipe :=
  { recA with title := "Soup v2", createdAt := some 777 }

/-- A module state with `recA` persisted but a cold record cache: the
store of `stSavedA` with `cache = {data: null, timestamp: 0}` and an empty
access trace. -/
def stWitC2 : St :=
  { store := stSavedA.store, cacheD := none, cacheT := 0, trace := [] }

/-- A raw stored document whose `createdAt` does not parse as a timestamp. -/
def rawBad : RawRecipe :=
  { id := "9", title := "t", description := "", images := [],
    createdAt := .unparsable, updatedAt := none }

/-- A concrete platform URL parser for the witnesses: it can parse exactly
two URIs, one on the trusted image host and one on an unknown host. -/
def witParseHost : String → Option String :=
  fun s =>
    if s = "https://picsum.photos/id/7/200" then some "picsum.photos"
    else if s = "https://img.example.net/a.jpg" then some "img.example.net"
    else none

/-- A witness environment whose HEAD checks succeed. -/
def witEnv : ImgEnv :=
  { now := 1000, fetchHeadOk := fun _ => some true }

/-- A later witness environment (within the TTL) whose HEAD checks all
fail, to show the cached result is served without a new check. -/
def witEnv2 : ImgEnv :=
  { now := 2000, fetchHeadOk := fun _ => none }

/-!
## Theorems
-/

/-- The explored state set contains the initial state. -/
lemma initM_mem_twoSaveStates : initM ∈ twoSaveStates := by decide

/-- The explored state set is closed under the scheduler step. -/
lemma twoSaveStates_closed :
    ∀ m ∈ twoSaveStates, ∀ m' ∈ succs m, m' ∈ twoSaveStates := by decide

/-- Every state reachable from a member of the explored set is itself in
the explored set. -/
lemma reach_mem_twoSaveStates {a b : MState} (ha : a ∈ twoSaveStates)
    (h : Relation.ReflTransGen MStep a b) : b ∈ twoSaveStates := by
  induction h with
  | refl => exact ha
  | tail _ hstep ih => exact twoSaveStates_closed _ ih _ hstep

/-- `runDet` only follows scheduler steps. -/
lemma runDet_reaches : ∀ (n : Nat) (m : MState),
    Relation.ReflTransGen MStep m (runDet n m) := by
  intro n
  induction n with
  | zero => intro m; exact .refl
  | succ k ih =>
      intro m
      cases hs : succs m with
      | nil => simpa [runDet, hs] using Relation.ReflTransGen.refl
      | cons m' rest =>
          have hstep : MStep m m' := by
            unfold MStep
            rw [hs]
            exact List.mem_cons_self m' rest
          have : Relation.ReflTransGen MStep m' (runDet k m') := ih m'
          simpa [runDet, hs] using Relation.ReflTransGen.head hstep this

/-- In every explored terminal state the two saves have serialized. -/
lemma twoSaveStates_terminal_shape :
    ∀ m ∈ twoSaveStates, succs m = [] →
      m.trace = [.read, .write, .read, .write] ∧
      storedIds m.store = ["1", "2"] ∧
      m.s1 = .settled none true ∧ m.s2 = .settled none true := by
  decide

/-- C1: two `saveRecipe` calls submitted concurrently against an initially
empty store both complete with exactly two records stored, and under every
scheduling of the suspension points the storage accesses form two complete
non-interleaved read-then-write pairs — the second call's read is scheduled
strictly after the first call's write, because the second critical section
is chained onto the settlement of the first by `withMutex`. -/
theorem C1_concurrent_saves_serialized (m : MState)
    (hreach : Relation.ReflTransGen MStep initM m) (hterm : succs m = []) :
    m.trace = [.read, .write, .read, .write] ∧
    storedIds m.store = ["1", "2"] ∧
    m.s1 = .settled none true ∧ m.s2 = .settled none true :=
  twoSaveStates_terminal_shape m
    (reach_mem_twoSaveStates initM_mem_twoSaveStates hreach) hterm

/-- Witness for C1: the concrete run of the scheduler reaches a terminal
state, at which the theorem's conclusion holds. -/
theorem C1_concurrent_saves_serialized_witness :
    (Relation.ReflTransGen MStep initM finalM ∧ succs finalM = []) ∧
    (finalM.trace = [.read, .write, .read, .write] ∧
     storedIds finalM.store = ["1", "2"] ∧
     finalM.s1 = .settled none true ∧ finalM.s2 = .settled none true) :=
  ⟨⟨runDet_reaches 20 initM, by decide⟩,
   C1_concurrent_saves_serialized finalM (runDet_reaches 20 initM) (by decide)⟩

/-- C7: when `withMutex f` is queued before `withMutex g` and `f` rejects,
`g` still executes — on the state `f` left behind — and `withMutex g`'s
returned promise settles with `g`'s own result; the rejection of `f` is
also faithfully returned by `withMutex f`.  The rejection never blocks the
chain because the chain promise is advanced with a two-handler `then`. -/
theorem C7_rejection_does_not_block_chain {σ ε α β : Type}
    (f : Prom σ ε α) (g : Prom σ ε β) (s : σ) (e : ε)
    (_hrej : (f s).2 = Except.error e) :
    (withMutex (withMutex (MutexChain.init : MutexChain σ ε) f).2 g).1 s = g (f s).1 ∧
    (withMutex (MutexChain.init : MutexChain σ ε) f).1 s = f s := by
  refine ⟨?_, ?_⟩ <;>
    simp [withMutex, Prom.then1, Prom.then2, MutexChain.init]

/-- Witness for C7: a concrete rejecting `f`, followed by a `g` that runs
on `f`'s post-state and fulfils with `g`'s own result. -/
theorem C7_rejection_does_not_block_chain_witness :
    (bumpFail 0).2 = Except.error "boom" ∧
    ((withMutex (withMutex (MutexChain.init : MutexChain Nat String) bumpFail).2
        doubleOk).1 0 = doubleOk (bumpFail 0).1 ∧
     (withMutex (MutexChain.init : MutexChain Nat String) bumpFail).1 0 = bumpFail 0) :=
  ⟨rfl, C7_rejection_does_not_block_chain bumpFail doubleOk 0 "boom" rfl⟩

/-- A successful `saveRecipe` implies the id was non-empty and not yet
present, and the call appended the stamped record: one read then one
write, with the cache replaced by `writeToStorage`. -/
lemma saveRecipeOp_success {r : Recipe} {st : St} {now : Nat}
    (hsave : (saveRecipeOp r st now).1 = none) :
    r.id ≠ "" ∧
    (readFromStorage st.store now).any (fun x => x.id == r.id) = false ∧
    saveRecipeOp r st now =
      (none, writeOp (readFromStorage st.store now ++ [stampNew r now])
        { st with trace := st.trace ++ [.read] } now) := by
  by_cases hid : r.id = ""
  · simp [saveRecipeOp, hid] at hsave
  · by_cases hdup : (readFromStorage st.store now).any (fun x => x.id == r.id) = true
    · simp [saveRecipeOp, readOp, hid, hdup] at hsave
    · refine ⟨hid, by simpa using hdup, ?_⟩
      simp [saveRecipeOp, readOp, hid, hdup]

/-- C2 counterexample: a successful `saveRecipe` against the empty store
performs `[read, write]`; the immediately following `getRecipes` (one
millisecond later, well inside the TTL) issues no new storage read — the
trace is unchanged and the state is returned untouched — because
`writeToStorage` replaced the cache with the written collection instead of
invalidating it.  The claim predicts a second `read` here. -/
theorem C2_counterexample_write_does_not_invalidate :
    (saveRecipeOp recA St.init 0).1 = none ∧
    (saveRecipeOp recA St.init 0).2.trace = [.read, .write] ∧
    getRecipesOp (saveRecipeOp recA St.init 0).2 1 =
      ([stampNew recA 0], (saveRecipeOp recA St.init 0).2) := by
  decide

/-- A successful `updateRecipe` implies the id was non-empty and the
find-and-replace succeeded, and the call wrote exactly the replaced
collection after its one read. -/
lemma updateRecipeOp_success {r : Recipe} {st : St} {now : Nat}
    (h : (updateRecipeOp r st now).1 = none) :
    r.id ≠ "" ∧
    ∃ updated, updateIn r now (readFromStorage st.store now) = some updated ∧
      updateRecipeOp r st now =
        (none, writeOp updated { st with trace := st.trace ++ [.read] } now) := by
  by_cases hid : r.id = ""
  · simp [updateRecipeOp, hid] at h
  · cases hupd : updateIn r now (readFromStorage st.store now) with
    | none => simp [updateRecipeOp, readOp, hid, hupd] at h
    | some updated =>
        exact ⟨hid, updated, rfl, by simp [updateRecipeOp, readOp, hid, hupd]⟩

/-- A successful `deleteRecipe` implies the id was non-empty and matched,
and the call wrote exactly the filtered collection after its one read. -/
lemma deleteRecipeOp_success {rid : String} {st : St} {now : Nat}
    (h : (deleteRecipeOp rid st now).1 = none) :
    rid ≠ "" ∧
    deleteRecipeOp rid st now =
      (none, writeOp ((readFromStorage st.store now).filter (fun x => x.id != rid))
        { st with trace := st.trace ++ [.read] } now) := by
  by_cases hid : rid = ""
  · simp [deleteRecipeOp, hid] at h
  · by_cases hlen : ((readFromStorage st.store now).filter (fun x => x.id != rid)).length =
        (readFromStorage st.store now).length
    · simp [deleteRecipeOp, readOp, hid, hlen] at h
    · exact ⟨hid, by simp [deleteRecipeOp, readOp, hid, hlen]⟩

/-- `writeToStorage recipes` leaves the cache holding exactly the written
collection with timestamp `now`, so a `getRecipes` within the TTL is a
cache hit: it returns exactly that collection and changes nothing. -/
lemma getRecipes_after_writeOp (L : List Recipe) (st1 : St) (now now2 : Nat)
    (httl : now2 - now < CACHE_TIMEOUT) :
    (writeOp L st1 now).cacheD = some L ∧
    (writeOp L st1 now).cacheT = now ∧
    getRecipesOp (writeOp L st1 now) now2 = (L, writeOp L st1 now) := by
  refine ⟨rfl, rfl, ?_⟩
  simp [getRecipesOp, writeOp, httl]

/-- C2 amended: every successful write operation — `saveRecipe`,
`updateRecipe` or `deleteRecipe` — replaces the record cache with exactly
the collection it wrote (timestamp `now`), so a `getRecipes` within the
TTL after the write issues no storage read and returns exactly the written
records with the state untouched; and with a cold cache two `getRecipes`
calls within the TTL issue exactly one storage read between them. -/
theorem C2_amended_write_replaces_cache (st : St) (rS rU : Recipe) (rid : String)
    (now now2 : Nat) (httl : now2 - now < CACHE_TIMEOUT) :
    ((saveRecipeOp rS st now).1 = none →
      (saveRecipeOp rS st now).2.cacheD =
        some (readFromStorage st.store now ++ [stampNew rS now]) ∧
      (saveRecipeOp rS st now).2.cacheT = now ∧
      getRecipesOp (saveRecipeOp rS st now).2 now2 =
        (readFromStorage st.store now ++ [stampNew rS now], (saveRecipeOp rS st now).2)) ∧
    ((updateRecipeOp rU st now).1 = none →
      ∃ updated, updateIn rU now (readFromStorage st.store now) = some updated ∧
        (updateRecipeOp rU st now).2.cacheD = some updated ∧
        (updateRecipeOp rU st now).2.cacheT = now ∧
        getRecipesOp (updateRecipeOp rU st now).2 now2 =
          (updated, (updateRecipeOp rU st now).2)) ∧
    ((deleteRecipeOp rid st now).1 = none →
      (deleteRecipeOp rid st now).2.cacheD =
        some ((readFromStorage st.store now).filter (fun x => x.id != rid)) ∧
      (deleteRecipeOp rid st now).2.cacheT = now ∧
      getRecipesOp (deleteRecipeOp rid st now).2 now2 =
        ((readFromStorage st.store now).filter (fun x => x.id != rid),
         (deleteRecipeOp rid st now).2)) ∧
    (st.cacheD = none →
      (getRecipesOp st now).2.trace = st.trace ++ [.read] ∧
      getRecipesOp (getRecipesOp st now).2 now2 =
        ((getRecipesOp st now).1, (getRecipesOp st now).2)) := by
  refine ⟨?_, ?_, ?_, ?_⟩
  · intro hs
    obtain ⟨_, _, heq⟩ := saveRecipeOp_success hs
    rw [heq]
    simpa using getRecipes_after_writeOp (readFromStorage st.store now ++ [stampNew rS now])
      { st with trace := st.trace ++ [.read] } now now2 httl
  · intro hu
    obtain ⟨_, updated, hupd, heq⟩ := updateRecipeOp_success hu
    refine ⟨updated, hupd, ?_⟩
    rw [heq]
    simpa using getRecipes_after_writeOp updated
      { st with trace := st.trace ++ [.read] } now now2 httl
  · intro hd
    obtain ⟨_, heq⟩ := deleteRecipeOp_success hd
    rw [heq]
    simpa using getRecipes_after_writeOp
      ((readFromStorage st.store now).filter (fun x => x.id != rid))
      { st with trace := st.trace ++ [.read] } now now2 httl
  · intro hcold
    refine ⟨by simp [getRecipesOp, hcold, readOp], ?_⟩
    simp [getRecipesOp, hcold, readOp, httl]

/-- Witness for C2 amended: over the stored collection `[recA]` with a
cold cache, a save of a fresh id, an update of the stored id and a delete
of the stored id all succeed at time 9, and each consequent holds with the
follow-up `getRecipes` at time 10; the cold-cache double read also fires. -/
theorem C2_amended_write_replaces_cache_witness :
    (10 - 9 < CACHE_TIMEOUT ∧
     (saveRecipeOp recB stWitC2 9).1 = none ∧
     (updateRecipeOp recA2 stWitC2 9).1 = none ∧
     (deleteRecipeOp "1" stWitC2 9).1 = none ∧
     stWitC2.cacheD = none) ∧
    (((saveRecipeOp recB stWitC2 9).2.cacheD =
        some (readFromStorage stWitC2.store 9 ++ [stampNew recB 9]) ∧
      (saveRecipeOp recB stWitC2 9).2.cacheT = 9 ∧
      getRecipesOp (saveRecipeOp recB stWitC2 9).2 10 =
        (readFromStorage stWitC2.store 9 ++ [stampNew recB 9],
         (saveRecipeOp recB stWitC2 9).2)) ∧
     (∃ updated, updateIn recA2 9 (readFromStorage stWitC2.store 9) = some updated ∧
        (updateRecipeOp recA2 stWitC2 9).2.cacheD = some updated ∧
        (updateRecipeOp recA2 stWitC2 9).2.cacheT = 9 ∧
        getRecipesOp (updateRecipeOp recA2 stWitC2 9).2 10 =
          (updated, (updateRecipeOp recA2 stWitC2 9).2)) ∧
     ((deleteRecipeOp "1" stWitC2 9).2.cacheD =
        some ((readFromStorage stWitC2.store 9).filter (fun x => x.id != "1")) ∧
      (deleteRecipeOp "1" stWitC2 9).2.cacheT = 9 ∧
      getRecipesOp (deleteRecipeOp "1" stWitC2 9).2 10 =
        ((readFromStorage stWitC2.store 9).filter (fun x => x.id != "1"),
         (deleteRecipeOp "1" stWitC2 9).2)) ∧
     ((getRecipesOp stWitC2 9).2.trace = stWitC2.trace ++ [.read] ∧
      getRecipesOp (getRecipesOp stWitC2 9).2 10 =
        ((getRecipesOp stWitC2 9).1, (getRecipesOp stWitC2 9).2))) := by
  have thm := C2_amended_write_replaces_cache stWitC2 recB recA2 "1" 9 10 (by decide)
  exact ⟨⟨by decide, by decide, by decide, by decide, rfl⟩,
    thm.1 (by decide), thm.2.1 (by decide), thm.2.2.1 (by decide), thm.2.2.2 rfl⟩

/-- `updateRecipe`'s find-and-replace on a collection split around the
first record whose id matches the payload. -/
lemma updateIn_split (r : Recipe) (now : Nat) (pre post : List Recipe) (x : Recipe)
    (hpre : ∀ y ∈ pre, (y.id == r.id) = false) (hx : (x.id == r.id) = true) :
    updateIn r now (pre ++ x :: post) =
      some (pre ++ { r with createdAt := x.createdAt, updatedAt := some now } :: post) := by
  induction pre with
  | nil => simp [updateIn, hx]
  | cons y ys ih =>
      have hy : (y.id == r.id) = false := hpre y (by simp)
      have ih2 := ih (fun z hz => hpre z (by simp [hz]))
      simp [updateIn, hy, ih2]

/-- C3 counterexample: `saveRecipe recA` at time 5 stores `updatedAt = 5`;
a successful `updateRecipe` of the same record still at time 5 (the same
clock millisecond) stores `updatedAt = 5` again — equal to, not strictly
greater than, the previously stored value.  The code stamps `new Date()`
without comparing against the stored value, so strict increase fails
whenever the clock has not advanced. -/
theorem C3_counterexample_equal_clock_update :
    (saveRecipeOp recA St.init 5).1 = none ∧
    storedUpdated stSavedA.store = [some (.parsable 5)] ∧
    (updateRecipeOp { recA with title := "Soup v2" } stSavedA 5).1 = none ∧
    storedUpdated (updateRecipeOp { recA with title := "Soup v2" } stSavedA 5).2.store =
      [some (.parsable 5)] := by
  decide

/-- C3 amended: a successful `updateRecipe` stores `updatedAt` equal to
the current clock time, which strictly exceeds the record's previously
stored `updatedAt` exactly when the clock has advanced past it; a write in
the same clock millisecond stores an equal value. -/
theorem C3_amended_update_stamps_clock (st : St) (now : Nat) (r x : Recipe)
    (pre post : List Recipe) (u : Nat)
    (hid : r.id ≠ "")
    (hsplit : readFromStorage st.store now = pre ++ x :: post)
    (hpre : ∀ y ∈ pre, (y.id == r.id) = false)
    (hx : (x.id == r.id) = true)
    (_hprev : x.updatedAt = some u)
    (hclock : u < now) :
    ∃ t, u < t ∧
      updateRecipeOp r st now =
        (none, writeOp (pre ++ { r with createdAt := x.createdAt, updatedAt := some t } :: post)
          { st with trace := st.trace ++ [.read] } now) := by
  refine ⟨now, hclock, ?_⟩
  have hsplit2 : updateIn r now (readFromStorage st.store now) =
      some (pre ++ { r with createdAt := x.createdAt, updatedAt := some now } :: post) := by
    rw [hsplit]
    exact updateIn_split r now pre post x hpre hx
  simp [updateRecipeOp, readOp, hid, hsplit2]

/-- Witness for C3 amended: updating the stored record at time 9, after it
was saved at time 5. -/
theorem C3_amended_update_stamps_clock_witness :
    (recA2.id ≠ "" ∧
     readFromStorage stSavedA.store 9 = [] ++ stampNew recA 5 :: [] ∧
     (∀ y ∈ ([] : List Recipe), (y.id == recA2.id) = false) ∧
     ((stampNew recA 5).id == recA2.id) = true ∧
     (stampNew recA 5).updatedAt = some 5 ∧ 5 < 9) ∧
    (∃ t, 5 < t ∧
      updateRecipeOp recA2 stSavedA 9 =
        (none,
         writeOp
           ([] ++
             { recA2 with
               createdAt := (stampNew recA 5).createdAt
               updatedAt := some t } :: [])
           { stSavedA with trace := stSavedA.trace ++ [.read] } 9)) :=
  ⟨⟨by decide, by decide, by simp, by decide, by decide, by decide⟩,
   C3_amended_update_stamps_clock stSavedA 9 recA2 (stampNew recA 5) [] [] 5
     (by decide) (by decide) (by simp) (by decide) (by decide) (by decide)⟩

/-- C4: `saveRecipe` of a recipe whose (non-empty) id is already present
in the stored collection fails with the conflict error and performs no
mutation: the Document Store payload, the cache data and the cache
timestamp are all returned exactly as they were, the only storage access
being the `getItem` of the duplicate check. -/
theorem C4_duplicate_save_conflict_no_mutation (st : St) (now : Nat) (r : Recipe)
    (hid : r.id ≠ "")
    (hdup : (readFromStorage st.store now).any (fun x => x.id == r.id) = true) :
    saveRecipeOp r st now =
      (some (.conflict r.id), { st with trace := st.trace ++ [.read] }) := by
  simp [saveRecipeOp, readOp, hid, hdup]

/-- Witness for C4: saving `recA`'s id a second time. -/
theorem C4_duplicate_save_conflict_no_mutation_witness :
    (recA.id ≠ "" ∧
     (readFromStorage stSavedA.store 6).any (fun x => x.id == recA.id) = true) ∧
    saveRecipeOp recA stSavedA 6 =
      (some (.conflict recA.id), { stSavedA with trace := stSavedA.trace ++ [.read] }) :=
  ⟨⟨by decide, by decide⟩,
   C4_duplicate_save_conflict_no_mutation stSavedA 6 recA (by decide) (by decide)⟩

/-- C5: `updateRecipe` with a payload carrying a stored id replaces the
record in place, storing the `createdAt` already persisted for that record
(here `x.createdAt`) no matter what `createdAt` the caller supplied in the
payload, which appears nowhere in the written collection. -/
theorem C5_update_preserves_createdAt (st : St) (now : Nat) (r x : Recipe)
    (pre post : List Recipe)
    (hid : r.id ≠ "")
    (hsplit : readFromStorage st.store now = pre ++ x :: post)
    (hpre : ∀ y ∈ pre, (y.id == r.id) = false)
    (hx : (x.id == r.id) = true) :
    updateRecipeOp r st now =
      (none, writeOp (pre ++ { r with createdAt := x.createdAt, updatedAt := some now } :: post)
        { st with trace := st.trace ++ [.read] } now) := by
  have hsplit2 : updateIn r now (readFromStorage st.store now) =
      some (pre ++ { r with createdAt := x.createdAt, updatedAt := some now } :: post) := by
    rw [hsplit]
    exact updateIn_split r now pre post x hpre hx
  simp [updateRecipeOp, readOp, hid, hsplit2]

/-- Witness for C5: the caller supplies `createdAt = 777`; the stored
record keeps the persisted `createdAt = 5`. -/
theorem C5_update_preserves_createdAt_witness :
    (recA2.id ≠ "" ∧
     readFromStorage stSavedA.store 9 = [] ++ stampNew recA 5 :: [] ∧
     (∀ y ∈ ([] : List Recipe), (y.id == recA2.id) = false) ∧
     ((stampNew recA 5).id == recA2.id) = true) ∧
    (updateRecipeOp recA2 stSavedA 9 =
      (none,
       writeOp
         ([] ++
           { recA2 with
             createdAt := (stampNew recA 5).createdAt
             updatedAt := some 9 } :: [])
         { stSavedA with trace := stSavedA.trace ++ [.read] } 9) ∧
     (stampNew recA 5).createdAt = some 5 ∧ recA2.createdAt = some 777) :=
  ⟨⟨by decide, by decide, by simp, by decide⟩,
   ⟨C5_update_preserves_createdAt stSavedA 9 recA2 (stampNew recA 5) [] []
      (by decide) (by decide) (by simp) (by decide), by decide, by decide⟩⟩

/-- C6: a missing payload, a rejected read, corrupt JSON and a non-array
JSON value all deserialize to the empty collection rather than an error;
an array payload is deserialized element by element (no element can fail
the read), and an element whose `createdAt` does not parse gets the
current time substituted. -/
theorem C6_corrupt_payload_and_date_fallback (now : Nat) (rs : List RawRecipe)
    (raw : RawRecipe) (hbad : raw.createdAt = .unparsable) :
    readFromStorage .absent now = [] ∧
    readFromStorage .readError now = [] ∧
    readFromStorage .notJson now = [] ∧
    readFromStorage .notArray now = [] ∧
    readFromStorage (.arr rs) now = rs.map (fun x => deserializeRecipe x now) ∧
    (deserializeRecipe raw now).createdAt = some now := by
  refine ⟨rfl, rfl, rfl, rfl, rfl, ?_⟩
  simp [deserializeRecipe, parseDate, hbad]

/-- Witness for C6: a document whose `createdAt` is unparsable. -/
theorem C6_corrupt_payload_and_date_fallback_witness :
    rawBad.createdAt = .unparsable ∧
    (readFromStorage .absent 42 = [] ∧
     readFromStorage .readError 42 = [] ∧
     readFromStorage .notJson 42 = [] ∧
     readFromStorage .notArray 42 = [] ∧
     readFromStorage (.arr [rawBad]) 42 = [rawBad].map (fun x => deserializeRecipe x 42) ∧
     (deserializeRecipe rawBad 42).createdAt = some 42) :=
  ⟨rfl, C6_corrupt_payload_and_date_fallback 42 [rawBad] rawBad rfl⟩

/-- C9 (modelled from the spec; the `deleteRecipes` body is absent from
the sources): batch delete with an empty id list is a no-op that performs
no store access — the state, trace included, is returned unchanged — and
with a non-empty id list it removes every matching record in a single
read-then-write pass, returning no error for ids without a match. -/
theorem C9_batch_delete (st : St) (now : Nat) (ids : List String) (hne : ids ≠ []) :
    deleteRecipesOp [] st now = (none, st) ∧
    deleteRecipesOp ids st now =
      (none, writeOp ((readFromStorage st.store now).filter (fun x => !ids.contains x.id))
        { st with trace := st.trace ++ [.read] } now) := by
  refine ⟨by simp [deleteRecipesOp], ?_⟩
  simp [deleteRecipesOp, readOp, hne]

/-- Witness for C9: deleting `["1", "zz"]` where only `"1"` is stored. -/
theorem C9_batch_delete_witness :
    (["1", "zz"] ≠ ([] : List String)) ∧
    (deleteRecipesOp [] stSavedA 9 = (none, stSavedA) ∧
     deleteRecipesOp ["1", "zz"] stSavedA 9 =
       (none, writeOp ((readFromStorage stSavedA.store 9).filter
           (fun x => !(["1", "zz"].contains x.id)))
         { stSavedA with trace := stSavedA.trace ++ [.read] } 9)) :=
  ⟨by decide, C9_batch_delete stSavedA 9 ["1", "zz"] (by decide)⟩

/-- A character-list prefix match pins down the head of the list. -/
lemma prefAux_head {p : Char} {ps l : List Char} (h : prefAux (p :: ps) l = true) :
    ∃ cs, l = p :: cs ∧ prefAux ps cs = true := by
  cases l with
  | nil => simp [prefAux] at h
  | cons c cs =>
      simp only [prefAux, Bool.and_eq_true, beq_iff_eq] at h
      exact ⟨cs, by rw [h.1], h.2⟩

/-- An `http(s)` URI starts with the character `h`. -/
lemma httpish_head {uri : String}
    (h : (jsStartsWith uri "http://" || jsStartsWith uri "https://") = true) :
    ∃ cs, uri.toList = 'h' :: cs := by
  rcases (show jsStartsWith uri "http://" = true ∨ jsStartsWith uri "https://" = true by
    simpa using h) with h1 | h1
  · unfold jsStartsWith at h1
    rw [show "http://".toList = ['h', 't', 't', 'p', ':', '/', '/'] from rfl] at h1
    obtain ⟨cs, hcs, _⟩ := prefAux_head h1
    exact ⟨cs, hcs⟩
  · unfold jsStartsWith at h1
    rw [show "https://".toList = ['h', 't', 't', 'p', 's', ':', '/', '/'] from rfl] at h1
    obtain ⟨cs, hcs, _⟩ := prefAux_head h1
    exact ⟨cs, hcs⟩

/-- An `http(s)` URI is not a local-file-scheme URI. -/
lemma httpish_not_fileish {uri : String}
    (h : (jsStartsWith uri "http://" || jsStartsWith uri "https://") = true) :
    (jsStartsWith uri "file://" || jsStartsWith uri "content://") = false := by
  obtain ⟨cs, hcs⟩ := httpish_head h
  unfold jsStartsWith
  rw [show "file://".toList = ['f', 'i', 'l', 'e', ':', '/', '/'] from rfl,
    show "content://".toList = ['c', 'o', 'n', 't', 'e', 'n', 't', ':', '/', '/'] from rfl,
    hcs]
  simp [prefAux]

/-- An `http(s)` URI is not empty or all-whitespace. -/
lemma httpish_not_empty {uri : String}
    (h : (jsStartsWith uri "http://" || jsStartsWith uri "https://") = true) :
    jsEmptyTrim uri = false := by
  obtain ⟨cs, hcs⟩ := httpish_head h
  unfold jsEmptyTrim
  rw [hcs]
  have hws : 'h'.isWhitespace = false := by decide
  simp [hws]

/-- On a trusted `http(s)` URI the `try`-block answers `true` with no
network check. -/
lemma validateUncached_trusted (parseHost : String → Option String) (env : ImgEnv)
    (uri : String) (h : TrustedHttpUri parseHost uri) :
    validateUncached parseHost env uri = (true, 0) := by
  obtain ⟨hscheme, host, hparse, htrust⟩ := h
  have hfile := httpish_not_fileish hscheme
  simp [validateUncached, hfile, hscheme, hparse, htrust]

/-- A cache lookup result is a member of the cache. -/
lemma vGet_mem : ∀ {c : VCache} {uri : String} {e : VEntry},
    vGet c uri = some e → (uri, e) ∈ c := by
  intro c
  induction c with
  | nil => intro uri e h; simp [vGet] at h
  | cons kv rest ih =>
      intro uri e h
      by_cases h0 : (kv.1 == uri) = true
      · rw [vGet, if_pos h0] at h
        have h1 : kv.1 = uri := by simpa using h0
        have h2 : kv.2 = e := by simpa using h
        have : kv = (uri, e) := by
          obtain ⟨k, v⟩ := kv
          simp at h1 h2
          rw [h1, h2]
        exact this ▸ List.mem_cons_self _ _
      · rw [vGet, if_neg h0] at h
        exact List.mem_cons_of_mem _ (ih h)

/-- Membership after `Map.set`. -/
lemma mem_vSet : ∀ (c : VCache) (uri : String) (e : VEntry) (kv : String × VEntry),
    kv ∈ vSet c uri e → kv = (uri, e) ∨ kv ∈ c := by
  intro c uri e
  induction c with
  | nil =>
      intro kv h
      left
      simpa [vSet] using h
  | cons kv0 rest ih =>
      intro kv h
      by_cases h0 : (kv0.1 == uri) = true
      · rw [show vSet (kv0 :: rest) uri e = (uri, e) :: rest by simp [vSet, h0]] at h
        rcases List.mem_cons.mp h with h | h
        · exact Or.inl h
        · exact Or.inr (List.mem_cons_of_mem _ h)
      · rw [show vSet (kv0 :: rest) uri e = kv0 :: vSet rest uri e by simp [vSet, h0]] at h
        rcases List.mem_cons.mp h with h | h
        · exact Or.inr (h ▸ List.mem_cons_self _ _)
        · rcases ih kv h with h2 | h2
          · exact Or.inl h2
          · exact Or.inr (List.mem_cons_of_mem _ h2)

/-- The sweep only removes entries. -/
lemma mem_vSweep {c : VCache} {now : Nat} {kv : String × VEntry}
    (h : kv ∈ vSweep c now) : kv ∈ c := by
  unfold vSweep at h
  by_cases hlen : vSize c > 100
  · rw [if_pos hlen] at h
    exact (List.mem_filter.mp h).1
  · rwa [if_neg hlen] at h

/-- The cache-miss path preserves cache goodness: whatever it stores for a
trusted URI is `true`. -/
lemma validateAndCache_preserves_good (parseHost : String → Option String)
    (env : ImgEnv) (c : VCache) (uri : String) (hgood : GoodCache parseHost c) :
    GoodCache parseHost (validateAndCache parseHost env c uri).cache := by
  intro kv hmem htr
  have hmem2 : kv ∈ vSet c uri ⟨(validateUncached parseHost env uri).1, env.now⟩ :=
    mem_vSweep (by simpa [validateAndCache] using hmem)
  rcases mem_vSet c uri _ kv hmem2 with heq | hmem3
  · rw [heq]
    rw [heq] at htr
    have := validateUncached_trusted parseHost env uri htr
    simp [this]
  · exact hgood kv hmem3 htr

/-- `isValidImageUri` preserves cache goodness: starting from the empty
cache, every cache the module ever holds is good. -/
lemma isValidImageUri_preserves_good (parseHost : String → Option String)
    (env : ImgEnv) (c : VCache) (uri : String) (hgood : GoodCache parseHost c) :
    GoodCache parseHost (isValidImageUri parseHost env c uri).cache := by
  by_cases hempty : jsEmptyTrim uri = true
  · simpa [isValidImageUri, hempty] using hgood
  · cases hget : vGet c uri with
    | some cached =>
        by_cases hfresh : env.now - cached.timestamp < VALIDATION_CACHE_DURATION
        · simpa [isValidImageUri, hempty, hget, hfresh] using hgood
        · simpa [isValidImageUri, hempty, hget, hfresh] using
            validateAndCache_preserves_good parseHost env c uri hgood
    | none =>
        simpa [isValidImageUri, hempty, hget] using
          validateAndCache_preserves_good parseHost env c uri hgood

/-- `Map.set` then `Map.get` of the same key. -/
lemma vGet_vSet_self : ∀ (c : VCache) (uri : String) (e : VEntry),
    vGet (vSet c uri e) uri = some e := by
  intro c uri e
  induction c with
  | nil => simp [vSet, vGet]
  | cons kv0 rest ih =>
      by_cases h0 : (kv0.1 == uri) = true
      · rw [show vSet (kv0 :: rest) uri e = (uri, e) :: rest by simp [vSet, h0]]
        simp [vGet]
      · rw [show vSet (kv0 :: rest) uri e = kv0 :: vSet rest uri e by simp [vSet, h0]]
        rw [vGet, if_neg h0]
        exact ih

/-- A surviving first match is still the first match after `filter`. -/
lemma vGet_filter {p : String × VEntry → Bool} :
    ∀ {c : VCache} {uri : String} {e : VEntry},
      vGet c uri = some e → p (uri, e) = true → vGet (c.filter p) uri = some e := by
  intro c
  induction c with
  | nil => intro uri e h _; simp [vGet] at h
  | cons kv0 rest ih =>
      intro uri e h hp
      by_cases h0 : (kv0.1 == uri) = true
      · have h2 : kv0.2 = e := by
          rw [vGet, if_pos h0] at h
          simpa using h
        have hkv0 : kv0 = (uri, e) := by
          have h1 : kv0.1 = uri := by simpa using h0
          obtain ⟨k, v⟩ := kv0
          simp at h1 h2
          rw [h1, h2]
        rw [show (kv0 :: rest).filter p = kv0 :: rest.filter p by
          simp [List.filter_cons, hkv0, hp]]
        rw [vGet, if_pos h0, h2]
      · have hrest : vGet rest uri = some e := by
          rwa [vGet, if_neg h0] at h
        by_cases hfilt : p kv0 = true
        · rw [show (kv0 :: rest).filter p = kv0 :: rest.filter p by
            simp [List.filter_cons, hfilt]]
          rw [vGet, if_neg h0]
          exact ih hrest hp
        · rw [show (kv0 :: rest).filter p = rest.filter p by
            simp [List.filter_cons, hfilt]]
          exact ih hrest hp

/-- After the cache-miss path, the just-stored entry (stamped with the
call's `now`) is retrievable: the sweep never removes it because its age
is zero. -/
lemma vGet_validateAndCache (parseHost : String → Option String) (env : ImgEnv)
    (c : VCache) (uri : String) :
    vGet (validateAndCache parseHost env c uri).cache uri =
      some ⟨(validateUncached parseHost env uri).1, env.now⟩ := by
  unfold validateAndCache vSweep
  by_cases hlen :
      vSize (vSet c uri ⟨(validateUncached parseHost env uri).1, env.now⟩) > 100
  · simp only [hlen, if_true]
    refine vGet_filter (vGet_vSet_self c uri _) ?_
    simp
  · simp only [hlen, if_false]
    exact vGet_vSet_self c uri _

/-- C8: a URI on a trusted domain validates `true` with zero network
checks (from any cache the module can have built); a URI on an unknown
domain that is not yet cached issues exactly one HEAD check, and any
subsequent call within the TTL issues zero checks and returns the cached
result with the cache untouched. -/
theorem C8_trusted_shortcut_and_single_head_check
    (parseHost : String → Option String) (env env2 : ImgEnv) (c : VCache)
    (uriT uriU host : String)
    (hgood : GoodCache parseHost c)
    (htrusted : TrustedHttpUri parseHost uriT)
    (hscheme : (jsStartsWith uriU "http://" || jsStartsWith uriU "https://") = true)
    (hhost : parseHost uriU = some host)
    (huntrusted : trustedDomains.any (fun d => jsIncludes host d) = false)
    (hmiss : vGet c uriU = none)
    (httl : env2.now - env.now < VALIDATION_CACHE_DURATION) :
    ((isValidImageUri parseHost env c uriT).result = true ∧
     (isValidImageUri parseHost env c uriT).netCalls = 0) ∧
    ((isValidImageUri parseHost env c uriU).netCalls = 1 ∧
     isValidImageUri parseHost env2 (isValidImageUri parseHost env c uriU).cache uriU =
       ⟨(isValidImageUri parseHost env c uriU).result,
        (isValidImageUri parseHost env c uriU).cache, 0⟩) := by
  have hemptyT := httpish_not_empty htrusted.1
  constructor
  · cases hget : vGet c uriT with
    | some cached =>
        have hT : cached.isValid = true := hgood (uriT, cached) (vGet_mem hget) htrusted
        by_cases hfresh : env.now - cached.timestamp < VALIDATION_CACHE_DURATION
        · simp [isValidImageUri, hemptyT, hget, hfresh, hT]
        · simp [isValidImageUri, hemptyT, hget, hfresh, validateAndCache,
            validateUncached_trusted parseHost env uriT htrusted]
    | none =>
        simp [isValidImageUri, hemptyT, hget, validateAndCache,
          validateUncached_trusted parseHost env uriT htrusted]
  · have hemptyU := httpish_not_empty hscheme
    have hfileU := httpish_not_fileish hscheme
    have hfirst : isValidImageUri parseHost env c uriU = validateAndCache parseHost env c uriU := by
      simp [isValidImageUri, hemptyU, hmiss]
    have hnet : (validateUncached parseHost env uriU).2 = 1 := by
      cases hfetch : env.fetchHeadOk uriU <;>
        simp [validateUncached, hfileU, hscheme, hhost, huntrusted, hfetch]
    constructor
    · rw [hfirst]
      simpa [validateAndCache] using hnet
    · rw [hfirst]
      have hcached := vGet_validateAndCache parseHost env c uriU
      have hres : (validateAndCache parseHost env c uriU).result =
          (validateUncached parseHost env uriU).1 := by
        simp [validateAndCache]
      simp [isValidImageUri, hemptyU, hcached, httl, hres]

/-- Witness for C8: the trusted `picsum.photos` URL and an unknown-domain
URL, from the empty cache; the follow-up call happens 1000 ms later with a
fetch oracle that would fail, showing the cached result is served. -/
theorem C8_trusted_shortcut_and_single_head_check_witness :
    (GoodCache witParseHost [] ∧
     TrustedHttpUri witParseHost "https://picsum.photos/id/7/200" ∧
     (jsStartsWith "https://img.example.net/a.jpg" "http://" ||
       jsStartsWith "https://img.example.net/a.jpg" "https://") = true ∧
     witParseHost "https://img.example.net/a.jpg" = some "img.example.net" ∧
     trustedDomains.any (fun d => jsIncludes "img.example.net" d) = false ∧
     vGet [] "https://img.example.net/a.jpg" = none ∧
     witEnv2.now - witEnv.now < VALIDATION_CACHE_DURATION) ∧
    (((isValidImageUri witParseHost witEnv [] "https://picsum.photos/id/7/200").result = true ∧
      (isValidImageUri witParseHost witEnv [] "https://picsum.photos/id/7/200").netCalls = 0) ∧
     ((isValidImageUri witParseHost witEnv [] "https://img.example.net/a.jpg").netCalls = 1 ∧
      isValidImageUri witParseHost witEnv2
          (isValidImageUri witParseHost witEnv [] "https://img.example.net/a.jpg").cache
          "https://img.example.net/a.jpg" =
        ⟨(isValidImageUri witParseHost witEnv [] "https://img.example.net/a.jpg").result,
         (isValidImageUri witParseHost witEnv [] "https://img.example.net/a.jpg").cache, 0⟩)) :=
  ⟨⟨by intro kv h; simp at h,
    ⟨by decide, "picsum.photos", by decide, by decide⟩,
    by decide, by decide, by decide, by decide, by decide⟩,
   C8_trusted_shortcut_and_single_head_check witParseHost witEnv witEnv2 []
     "https://picsum.photos/id/7/200" "https://img.example.net/a.jpg" "img.example.net"
     (by intro kv h; simp at h)
     ⟨by decide, "picsum.photos", by decide, by decide⟩
     (by decide) (by decide) (by decide) (by decide) (by decide)⟩

/-- C10: `isValidImageUri` settles with `false` — it never rejects — on
every failing input: an empty/whitespace string, a remote URI whose `URL`
parse throws, a remote URI whose HEAD check rejects or times out, and a
URI of an unrecognized scheme.  (The embedding is a total function into
`Bool`, mirroring that every exception inside the `try` is caught.) -/
theorem C10_validation_failures_downgraded_to_false
    (parseHost : String → Option String) (env : ImgEnv) (c : VCache) (uri : String)
    (hfail : jsEmptyTrim uri = true ∨
      (vGet c uri = none ∧
        (((jsStartsWith uri "http://" || jsStartsWith uri "https://") = true ∧
            parseHost uri = none) ∨
         ((jsStartsWith uri "http://" || jsStartsWith uri "https://") = true ∧
            (∃ host, parseHost uri = some host ∧
              trustedDomains.any (fun d => jsIncludes host d) = false) ∧
            env.fetchHeadOk uri = none) ∨
         ((jsStartsWith uri "file://" || jsStartsWith uri "content://") = false ∧
          (jsStartsWith uri "http://" || jsStartsWith uri "https://") = false)))) :
    (isValidImageUri parseHost env c uri).result = false := by
  rcases hfail with hempty | ⟨hmiss, hcase⟩
  · simp [isValidImageUri, hempty]
  · by_cases hempty : jsEmptyTrim uri = true
    · simp [isValidImageUri, hempty]
    · rcases hcase with ⟨hscheme, hparse⟩ | ⟨hscheme, ⟨host, hhost, huntrusted⟩, hfetch⟩ |
        ⟨hfile, hhttp⟩
      · have hfile := httpish_not_fileish hscheme
        simp [isValidImageUri, hempty, hmiss, validateAndCache, validateUncached,
          hfile, hscheme, hparse]
      · have hfile := httpish_not_fileish hscheme
        simp [isValidImageUri, hempty, hmiss, validateAndCache, validateUncached,
          hfile, hscheme, hhost, huntrusted, hfetch]
      · simp [isValidImageUri, hempty, hmiss, validateAndCache, validateUncached,
          hfile, hhttp]

/-- Witness for C10: a URI on an unknown domain whose HEAD check rejects
(the `witEnv2` oracle) resolves to `false` instead of throwing. -/
theorem C10_validation_failures_downgraded_to_false_witness :
    (vGet [] "https://img.example.net/a.jpg" = none ∧
     (jsStartsWith "https://img.example.net/a.jpg" "http://" ||
       jsStartsWith "https://img.example.net/a.jpg" "https://") = true ∧
     witParseHost "https://img.example.net/a.jpg" = some "img.example.net" ∧
     trustedDomains.any (fun d => jsIncludes "img.example.net" d) = false ∧
     witEnv2.fetchHeadOk "https://img.example.net/a.jpg" = none) ∧
    (isValidImageUri witParseHost witEnv2 [] "https://img.example.net/a.jpg").result = false :=
  ⟨⟨by decide, by decide, by decide, by decide, rfl⟩,
   C10_validation_failures_downgraded_to_false witParseHost witEnv2 []
     "https://img.example.net/a.jpg"
     (Or.inr ⟨by decide,
       Or.inr (Or.inl ⟨by decide, ⟨"img.example.net", by decide, by decide⟩, rfl⟩)⟩)⟩

end RecipeApp

